import Mathlib

/-!
Verification of the egg-info converter (`src/dephell/converters/egginfo.py`)
against its natural-language specification.

The Python code is shallowly embedded: strings are processed as their
underlying character lists (so every definition evaluates inside the
kernel), header parsing follows the RFC822 parsing performed by the
external `email.parser.Parser`, and the PEP 508 requirement grammar is
modelled from the specification (it is an external capability of the
program, consumed but not reimplemented by the repository).
-/

namespace Dephell

/-- Characters accepted at the start of a PEP 508 requirement name
(letters, digits, `-`, `_`, `.`). -/
def isNameChar (c : Char) : Bool :=
  c.isAlphanum || c == '-' || c == '_' || c == '.'

/-- Drop leading whitespace characters. -/
def dropWS (l : List Char) : List Char :=
  l.dropWhile Char.isWhitespace

/-- Python `str.strip()` over the character list: remove leading and
trailing whitespace. -/
def trimChars (l : List Char) : List Char :=
  ((dropWS ((dropWS l).reverse)).reverse)

/-- Python `str.strip()`. -/
def strip (s : String) : String :=
  ⟨trimChars s.data⟩

/-- Python `str.lower()` (ASCII case folding, which is all the header
names here need). -/
def lower (s : String) : String :=
  ⟨s.data.map Char.toLower⟩

/-- `isPrefixL a b` is true when `a` is a prefix of `b`. -/
def isPrefixL : List Char → List Char → Bool
  | [], _ => true
  | _ :: _, [] => false
  | a :: as, b :: bs => a == b && isPrefixL as bs

/-- `containsL needle hay` is true when `needle` occurs contiguously in
`hay`. -/
def containsL (needle : List Char) : List Char → Bool
  | [] => isPrefixL needle []
  | c :: cs => isPrefixL needle (c :: cs) || containsL needle cs

/-- Python's `needle in hay` substring test. -/
def containsStr (hay needle : String) : Bool :=
  containsL needle.data hay.data

/-- Split a character list on a separator character, keeping empty
segments (Python `str.split(sep)`). -/
def splitChar (sep : Char) : List Char → List (List Char)
  | [] => [[]]
  | c :: cs =>
    match splitChar sep cs with
    | [] => [[]]
    | h :: t => if c == sep then [] :: h :: t else (c :: h) :: t

/-- The lines of a string (split on newline). -/
def splitLines (s : String) : List String :=
  (splitChar '\n' s.data).map (fun l => (⟨l⟩ : String))

/-- Worker for Python `str.split()` with no argument: split on runs of
whitespace, discarding empty tokens. -/
def pySplitGo : List Char → List Char → List (List Char)
  | [], acc => if acc.isEmpty then [] else [acc.reverse]
  | c :: cs, acc =>
    if c.isWhitespace then
      if acc.isEmpty then pySplitGo cs [] else acc.reverse :: pySplitGo cs []
    else pySplitGo cs (c :: acc)

/-- Python `content.split()`: the whitespace-separated tokens of a
string. -/
def pyTokens (s : String) : List String :=
  (pySplitGo s.data []).map (fun l => (⟨l⟩ : String))

/-- Modelled from the spec: RFC822-style header parsing as performed by
the external `email.parser.Parser` — an ordered list of colon-delimited
`(name, value)` fields, repeated names allowed.  The header section ends
at the first blank line or at a non-continuation line without a colon;
a line starting with space or tab continues the previous field's value;
the value is everything after the first colon with leading spaces/tabs
removed. -/
def parseHeaderLinesGo : List (List Char) → List (String × String) → List (String × String)
  | [], acc => acc.reverse
  | [] :: _, acc => acc.reverse
  | (c :: cs) :: rest, acc =>
    if c == ' ' || c == '\t' then
      match acc with
      | [] => parseHeaderLinesGo rest []
      | (k, v) :: tl => parseHeaderLinesGo rest ((k, v ++ "\n" ++ (⟨c :: cs⟩ : String)) :: tl)
    else
      match (c :: cs).span (fun x => x != ':') with
      | (key, _ :: vchars) =>
        parseHeaderLinesGo rest
          (((⟨key⟩ : String), (⟨vchars.dropWhile (fun x => x == ' ' || x == '\t')⟩ : String)) :: acc)
      | (_, []) => acc.reverse

/-- Parse the header section of a text into its ordered field list. -/
def parseHeaders (content : String) : List (String × String) :=
  parseHeaderLinesGo (splitChar '\n' content.data) []

/-- `email.message.Message.get`: the value of the first header whose
name matches case-insensitively, if any. -/
def getHeader (hs : List (String × String)) (name : String) : Option String :=
  (hs.find? (fun p => lower p.1 == lower name)).map (fun p => p.2)

/-- `email.message.Message.get_all`: the values of every header whose
name matches case-insensitively. -/
def getAllHeaders (hs : List (String × String)) (name : String) : List String :=
  (hs.filter (fun p => lower p.1 == lower name)).map (fun p => p.2)

/-- `EggInfoConverter._get`: the named header's value, with `None` and
the empty string mapped to `""`, then stripped, with the sentinel
`"UNKNOWN"` mapped to `""`. -/
def _get (hs : List (String × String)) (name : String) : String :=
  match getHeader hs name with
  | none => ""
  | some value =>
    if value == "" then ""
    else
      let value := strip value
      if value == "UNKNOWN" then "" else value

/-- `EggInfoConverter._get_list`: all values of the named repeated
header, each stripped, entries stripping to the sentinel `"UNKNOWN"`
omitted. -/
def _get_list (hs : List (String × String)) (name : String) : List String :=
  ((getAllHeaders hs name).filter (fun v => strip v != "UNKNOWN")).map strip

/-- Modelled from the spec: the PEP 508 Requirement Grammar Parser (an
external capability consumed by the program, not reimplemented by it):
a requirement string `name[extra1,extra2]>=1.0; marker` is decomposed
into name, extras, version-constraint text and environment marker; a
string without a leading name (or with an unclosed extras bracket) is
rejected. -/
structure Requirement where
  name : String
  extras : List String
  specifier : String
  marker : String
deriving DecidableEq, Repr

/-- Parse one PEP 508-style requirement string (see `Requirement`). -/
def parseRequirement (s : String) : Option Requirement :=
  let parts :=
    match s.data.span (fun c => c != ';') with
    | (m, _ :: rest) => (m, rest)
    | (m, []) => (m, [])
  let marker : String := ⟨trimChars parts.2⟩
  let main := trimChars parts.1
  let nameCs := main.takeWhile isNameChar
  let rest := main.drop nameCs.length
  if nameCs.isEmpty then none
  else
    match rest with
    | '[' :: rest2 =>
      match rest2.span (fun c => c != ']') with
      | (inner, _ :: after) =>
        some { name := ⟨nameCs⟩
               extras := (splitChar ',' inner).map (fun e => (⟨trimChars e⟩ : String))
               specifier := ⟨trimChars after⟩
               marker := marker }
      | (_, []) => none
    | _ =>
      some { name := ⟨nameCs⟩, extras := [], specifier := ⟨trimChars rest⟩, marker := marker }

/-- A canonical dependency record.  Modelled from the spec: `name`,
`extras`, version-constraint text and marker text; the back-reference to
the owning project is a label only and is not represented. -/
structure Dep where
  name : String
  extras : List String
  version : String
  markers : String
deriving DecidableEq, Repr

/-- Modelled from the spec: `DependencyMaker.from_requirement` (the
Dependency Factory, declared outside the given sources) — one canonical
Dependency per requirement, or one per extra when extras are present. -/
def fromRequirement (req : Requirement) : List Dep :=
  if req.extras.isEmpty then
    [{ name := req.name, extras := [], version := req.specifier, markers := req.marker }]
  else
    req.extras.map (fun e =>
      { name := req.name, extras := [e], version := req.specifier, markers := req.marker })

/-- Modelled from the spec: the Author record — `name` required, `mail`
optional (empty string when absent). -/
structure Author where
  name : String
  mail : String
deriving DecidableEq, Repr

/-- Modelled from the spec: the canonical project model
`RootDependency` (declared outside the given sources) — identity,
metadata, links, authors, dependencies and optional rendered readme.
`version` defaults to `"0.0.0"` when a source format declares none;
textual fields default to empty. -/
structure RootDependency where
  raw_name : String
  version : String
  description : String
  license : String
  keywords : List String
  classifiers : List String
  platforms : List String
  links : List (String × String)
  authors : List Author
  dependencies : List Dep
  readme : Option String
deriving DecidableEq, Repr

/-- A fresh `RootDependency` carrying only a name, every other field at
its default (as built by `RootDependency(raw_name=...)`). -/
def freshRoot (raw_name : String) : RootDependency :=
  { raw_name := raw_name, version := "0.0.0", description := "", license := ""
    keywords := [], classifiers := [], platforms := [], links := []
    authors := [], dependencies := [], readme := none }

/-- Parse a list of requirement strings, failing if any one fails
(each `PackagingRequirement(req)` call may raise). -/
def parseAll : List String → Option (List Requirement)
  | [] => some []
  | s :: rest =>
    match parseRequirement s, parseAll rest with
    | some r, some rs => some (r :: rs)
    | _, _ => none

/-- Flatten the Dependency Factory's output over a requirement list. -/
def concatMap (f : α → List β) : List α → List β
  | [] => []
  | a :: as => f a ++ concatMap f as

/-- The links added by `_parse_info`'s field loop: `Home-Page`,
`Download-URL` and `Project-URL` become the `home`, `download` and
`project` entries, each only when its normalized value is non-empty
(the assignments target distinct keys of an initially empty dict, so
they are the ordered entries listed here). -/
def newLinks (hs : List (String × String)) : List (String × String) :=
  (if _get hs "Home-Page" != "" then [("home", _get hs "Home-Page")] else []) ++
  (if _get hs "Download-URL" != "" then [("download", _get hs "Download-URL")] else []) ++
  (if _get hs "Project-URL" != "" then [("project", _get hs "Project-URL")] else [])

/-- The authors appended by `_parse_info`'s loop over
`('author', 'maintainer')`: each field independently contributes an
`Author` when its normalized value is non-empty, with the mail looked up
under `<field>_email`. -/
def newAuthors (hs : List (String × String)) : List Author :=
  (if _get hs "author" != "" then
    [{ name := _get hs "author", mail := _get hs "author_email" }] else []) ++
  (if _get hs "maintainer" != "" then
    [{ name := _get hs "maintainer", mail := _get hs "maintainer_email" }] else [])

/-- The raw requirement strings of a header block: the repeated
`Requires` fields then the repeated `Requires-Dist` fields. -/
def infoReqs (hs : List (String × String)) : List String :=
  _get_list hs "Requires" ++ _get_list hs "Requires-Dist"

/-- `EggInfoConverter._parse_info`: parse header-form (PKG-INFO)
metadata.  Builds the project from the normalized `Name`, `Version`
(defaulting to `"0.0.0"`), `Summary`, `License`, comma-split `Keywords`
and repeated `Classifier`/`Platform` fields, adds links and authors,
then parses the `Requires`/`Requires-Dist` values and attaches the
resulting dependencies (`None` when a requirement string is rejected by
the grammar, which in the program is a raised parse error). -/
def _parse_info (content : String) : Option RootDependency :=
  let info := parseHeaders content
  let base : RootDependency :=
    { raw_name := _get info "Name"
      version := (let v := _get info "Version"; if v == "" then "0.0.0" else v)
      description := _get info "Summary"
      license := _get info "License"
      keywords := (splitChar ',' (_get info "Keywords").data).map (fun l => (⟨l⟩ : String))
      classifiers := _get_list info "Classifier"
      platforms := _get_list info "Platform"
      links := [], authors := [], dependencies := [], readme := none }
  let root := { base with links := base.links ++ newLinks info }
  let root := { root with authors := root.authors ++ newAuthors info }
  match parseAll (infoReqs info) with
  | none => none
  | some rs => some { root with dependencies := root.dependencies ++ concatMap fromRequirement rs }

/-- Modelled from the spec: `BaseConverter._get_name` (declared outside
the given sources), a best-effort name inference from the raw content. -/
def inferName (content : String) : String :=
  ⟨(trimChars content.data).takeWhile isNameChar⟩

/-- `EggInfoConverter._parse_requires`: parse requirement-list text.
When no project is supplied a fresh one is built around an inferred
name; every whitespace-separated token is parsed as a requirement and
the resulting dependencies are attached. -/
def _parse_requires (content : String) (root : Option RootDependency) : Option RootDependency :=
  let r : RootDependency :=
    match root with
    | some r => r
    | none => freshRoot (inferName content)
  match parseAll (pyTokens content) with
  | none => none
  | some rs => some { r with dependencies := r.dependencies ++ concatMap fromRequirement rs }

/-- `EggInfoConverter.loads`: route to header-form parsing when the text
contains the marker `"Name: "`, otherwise to requirement-list parsing. -/
def loads (content : String) : Option RootDependency :=
  if containsStr content "Name: " then _parse_info content
  else _parse_requires content none

/-- Python `sep.join(parts)`. -/
def joinSep (sep : String) : List String → String
  | [] => ""
  | [x] => x
  | x :: y :: xs => x ++ sep ++ joinSep sep (y :: xs)

/-- `EggInfoConverter._format_req`: `name`, optional bracketed extras,
version-constraint text concatenated directly, optional `"; "` plus
marker. -/
def _format_req (req : Dep) : String :=
  let line := req.name
  let line := if !req.extras.isEmpty then line ++ "[" ++ joinSep "," req.extras ++ "]" else line
  let line := if req.version != "" then line ++ req.version else line
  if req.markers != "" then line ++ "; " ++ req.markers else line

/-- Look a key up in the links dict. -/
def lookupLink (links : List (String × String)) (key : String) : Option String :=
  (links.find? (fun p => p.1 == key)).map (fun p => p.2)

set_option linter.unusedVariables false in
/-- `EggInfoConverter.dumps`: serialize a project plus an explicit
dependency list.  The `content` argument is rebound to a fresh list on
the first line of the source body, so it never influences the output. -/
def dumps (reqs : List Dep) (project : RootDependency) (content : Option String) : String :=
  let c : List (String × String) :=
    [("Metadata-Version", "2.1"), ("Name", project.raw_name), ("Version", project.version)]
  let c := if project.description != "" then c ++ [("Summary", project.description)] else c
  let c := c ++ (match lookupLink project.links "home" with
    | some u => [("Home-Page", u)] | none => [])
  let c := c ++ (match lookupLink project.links "download" with
    | some u => [("Download-URL", u)] | none => [])
  let c := c ++ (match lookupLink project.links "project" with
    | some u => [("Project-URL", u)] | none => [])
  let c := match project.authors with
    | [] => c
    | a :: _ => (c ++ [("Author", a.name)]) ++
        (if a.mail != "" then [("Author-email", a.mail)] else [])
  let c := match project.authors with
    | _ :: a :: _ => (c ++ [("Maintainer", a.name)]) ++
        (if a.mail != "" then [("Maintainer-email", a.mail)] else [])
    | _ => c
  let c := if project.license != "" then c ++ [("License", project.license)] else c
  let c := if !project.keywords.isEmpty then c ++ [("Keywords", joinSep "," project.keywords)] else c
  let c := c ++ project.classifiers.map (fun cl => ("Classifier", cl))
  let c := c ++ project.platforms.map (fun p => ("Platform", p))
  let c := c ++ reqs.map (fun r => ("Requires", _format_req r))
  let text := joinSep "\n" (c.map (fun p => p.1 ++ ": " ++ p.2))
  match project.readme with
  | some r => text ++ "\n\n" ++ r
  | none => text

/-- The error taxonomy of the converter's directory resolution, named
as in the specification (`FileNotFoundError` raised for zero candidates
is the spec's `NotFoundError`; `FileExistsError` raised for several
candidates is the spec's `AmbiguousSourceError`; a missing `PKG-INFO`
or `requires.txt` file and a rejected requirement string also abort the
call). -/
inductive LoadError where
  | NotFoundError
  | AmbiguousSourceError
  | MissingFile
  | ParseError
deriving DecidableEq, Repr

/-- A candidate egg-info metadata directory: its `PKG-INFO` and
`requires.txt` files, when present. -/
structure EggInfoDir where
  pkg_info : Option String
  requires_txt : Option String
deriving DecidableEq, Repr

/-- `EggInfoConverter._load_dir`: zero candidates fail closed, two or
more fail closed, a single candidate has its `PKG-INFO` parsed as
header-form metadata and, when that declares no dependencies, the
sibling `requires.txt` parsed into the same project. -/
def _load_dir (paths : List EggInfoDir) : Except LoadError RootDependency :=
  match paths with
  | [] => .error .NotFoundError
  | [path] =>
    match path.pkg_info with
    | none => .error .MissingFile
    | some content =>
      match _parse_info content with
      | none => .error .ParseError
      | some root =>
        if root.dependencies.isEmpty then
          match path.requires_txt with
          | none => .error .MissingFile
          | some rcontent =>
            match _parse_requires rcontent (some root) with
            | none => .error .ParseError
            | some root2 => .ok root2
        else .ok root
  | _ :: _ :: _ => .error .AmbiguousSourceError

/-- The dependencies contributed by a requirement-list text: the
dependency-attaching part of `_parse_requires`. -/
def requiresDeps (content : String) : Option (List Dep) :=
  (parseAll (pyTokens content)).map (fun rs => concatMap fromRequirement rs)

/-! ## Helper lemmas -/

theorem get_none (hs : List (String × String)) (n : String)
    (h : getHeader hs n = none) : _get hs n = "" := by
  unfold _get
  rw [h]

theorem get_eq_strip (hs : List (String × String)) (n v : String)
    (h : getHeader hs n = some v) (hu : strip v ≠ "UNKNOWN") :
    _get hs n = strip v := by
  unfold _get
  rw [h]
  by_cases hv : v = ""
  · subst hv
    simp
    decide
  · simp only [hv, beq_iff_eq, if_false]
    simp [hu]

theorem get_unknown (hs : List (String × String)) (n v : String)
    (h : getHeader hs n = some v) (hu : strip v = "UNKNOWN") :
    _get hs n = "" := by
  unfold _get
  rw [h]
  by_cases hv : v = ""
  · subst hv
    exact absurd hu (by decide)
  · simp [hv, hu]

theorem get_ne_unknown (hs : List (String × String)) (n : String) :
    _get hs n ≠ "UNKNOWN" := by
  unfold _get
  cases h : getHeader hs n with
  | none => decide
  | some v =>
    by_cases hv : v = ""
    · simp [hv]
    · by_cases hu : strip v = "UNKNOWN"
      · simp [hv, hu]
      · simp [hv, hu]

theorem mem_get_list_ne_unknown (hs : List (String × String)) (n v : String)
    (h : v ∈ _get_list hs n) : v ≠ "UNKNOWN" := by
  simp only [_get_list, List.mem_map, List.mem_filter] at h
  obtain ⟨w, ⟨_, hne⟩, rfl⟩ := h
  simpa using hne

theorem parseAll_length : ∀ (ts : List String) (rs : List Requirement),
    parseAll ts = some rs → rs.length = ts.length := by
  intro ts
  induction ts with
  | nil =>
    intro rs h
    simp only [parseAll, Option.some.injEq] at h
    subst h
    rfl
  | cons s rest ih =>
    intro rs h
    simp only [parseAll] at h
    cases hp : parseRequirement s with
    | none => rw [hp] at h; exact absurd h (by simp)
    | some r =>
      rw [hp] at h
      cases ha : parseAll rest with
      | none => rw [ha] at h; exact absurd h (by simp)
      | some rs2 =>
        rw [ha] at h
        injection h with h2
        subst h2
        simp [ih rs2 ha]

theorem concatMap_from_length : ∀ (rs : List Requirement),
    (∀ r ∈ rs, r.extras = []) →
    (concatMap fromRequirement rs).length = rs.length := by
  intro rs
  induction rs with
  | nil => intro _; rfl
  | cons r rest ih =>
    intro h
    have hr : r.extras = [] := h r (by simp)
    simp only [concatMap, fromRequirement, hr, List.isEmpty_nil, if_true,
      List.length_append, List.length_cons, List.singleton_append]
    simp [ih (fun x hx => h x (by simp [hx]))]

/-- The value `_parse_info` computes, laid out field by field. -/
theorem parse_info_eq (content : String) :
    _parse_info content =
      (parseAll (infoReqs (parseHeaders content))).map (fun rs =>
        { raw_name := _get (parseHeaders content) "Name"
          version :=
            (if _get (parseHeaders content) "Version" == "" then "0.0.0"
             else _get (parseHeaders content) "Version")
          description := _get (parseHeaders content) "Summary"
          license := _get (parseHeaders content) "License"
          keywords :=
            (splitChar ',' (_get (parseHeaders content) "Keywords").data).map
              (fun l => (⟨l⟩ : String))
          classifiers := _get_list (parseHeaders content) "Classifier"
          platforms := _get_list (parseHeaders content) "Platform"
          links := newLinks (parseHeaders content)
          authors := newAuthors (parseHeaders content)
          dependencies := concatMap fromRequirement rs
          readme := none }) := by
  cases h : parseAll (infoReqs (parseHeaders content)) <;>
    simp [_parse_info, h]

theorem newLinks_home_none (hs : List (String × String))
    (h : _get hs "Home-Page" = "") : lookupLink (newLinks hs) "home" = none := by
  simp only [newLinks, h, lookupLink]
  split_ifs <;> simp_all

theorem newLinks_download_none (hs : List (String × String))
    (h : _get hs "Download-URL" = "") : lookupLink (newLinks hs) "download" = none := by
  simp only [newLinks, h, lookupLink]
  split_ifs <;> simp_all

theorem newLinks_project_none (hs : List (String × String))
    (h : _get hs "Project-URL" = "") : lookupLink (newLinks hs) "project" = none := by
  simp only [newLinks, h, lookupLink]
  split_ifs <;> simp_all

theorem mem_newAuthors (hs : List (String × String)) (a : Author)
    (h : a ∈ newAuthors hs) : a.name ≠ "UNKNOWN" ∧ a.mail ≠ "UNKNOWN" := by
  simp only [newAuthors, List.mem_append] at h
  rcases h with h | h
  · split at h
    · simp only [List.mem_singleton] at h
      subst h
      exact ⟨get_ne_unknown hs "author", get_ne_unknown hs "author_email"⟩
    · simp at h
  · split at h
    · simp only [List.mem_singleton] at h
      subst h
      exact ⟨get_ne_unknown hs "maintainer", get_ne_unknown hs "maintainer_email"⟩
    · simp at h

theorem get_empty_strip (hs : List (String × String)) (n v : String)
    (h : getHeader hs n = some v) (hv : strip v = "") : _get hs n = "" := by
  rw [get_eq_strip hs n v h (by rw [hv]; decide)]
  exact hv

/-! ## Claims -/

/-- The project produced by `loads "Name: demo\nVersion: 1.2"`. -/
def c1root : RootDependency :=
  { raw_name := "demo", version := "1.2", description := "", license := ""
    keywords := [""], classifiers := [], platforms := [], links := []
    authors := [], dependencies := [], readme := none }

/-- C1 (amended): for every header-form input that the `"Name: "` marker
routes to header-form parsing, whose first `Name` field line carries a
value stripping to `X` with `X` not the sentinel `"UNKNOWN"`, and whose
first `Version` field line carries a value stripping to `Y` with `Y`
non-empty and not the sentinel, a successful `loads` returns a project
with `raw_name = X` and `version = Y`. -/
theorem loads_header_name_version (content X Y nX vY : String) (root : RootDependency)
    (hroute : containsStr content "Name: " = true)
    (hn : getHeader (parseHeaders content) "Name" = some nX)
    (hnX : strip nX = X) (hXu : X ≠ "UNKNOWN")
    (hv : getHeader (parseHeaders content) "Version" = some vY)
    (hvY : strip vY = Y) (hYu : Y ≠ "UNKNOWN") (hYe : Y ≠ "")
    (hload : loads content = some root) :
    loads content = _parse_info content ∧ root.raw_name = X ∧ root.version = Y := by
  have hroute2 : loads content = _parse_info content := by
    simp [loads, hroute]
  rw [hroute2, parse_info_eq] at hload
  obtain ⟨rs, hrs, hroot⟩ := Option.map_eq_some'.mp hload
  have hgn : _get (parseHeaders content) "Name" = X := by
    rw [get_eq_strip _ _ _ hn (by rw [hnX]; exact hXu)]
    exact hnX
  have hgv : _get (parseHeaders content) "Version" = Y := by
    rw [get_eq_strip _ _ _ hv (by rw [hvY]; exact hYu)]
    exact hvY
  subst hroot
  refine ⟨hroute2, hgn, ?_⟩
  show (if _get (parseHeaders content) "Version" == "" then "0.0.0"
        else _get (parseHeaders content) "Version") = Y
  rw [hgv]
  simp [hYe]

/-- C1 fails as frozen: the input `"Name: UNKNOWN\nVersion: 1.0"` contains
the field line `Name: UNKNOWN` and a valid Version, yet the loaded
project's `raw_name` is `""`, not `"UNKNOWN"`. -/
theorem loads_header_name_version_counterexample :
    (splitLines "Name: UNKNOWN\nVersion: 1.0").contains "Name: UNKNOWN" = true ∧
    (loads "Name: UNKNOWN\nVersion: 1.0").map (fun r => (r.raw_name, r.version)) =
      some ("", "1.0") ∧ ("" : String) ≠ "UNKNOWN" := by decide

/-- Witness for C1 (amended) at the input `"Name: demo\nVersion: 1.2"`. -/
theorem loads_header_name_version_witness :
    loads "Name: demo\nVersion: 1.2" = _parse_info "Name: demo\nVersion: 1.2" ∧
    c1root.raw_name = "demo" ∧ c1root.version = "1.2" :=
  loads_header_name_version "Name: demo\nVersion: 1.2" "demo" "1.2" "demo" "1.2" c1root
    (by decide) (by decide) rfl (by decide) (by decide) rfl (by decide) (by decide) rfl

/-- An egg-info directory with no files, for instantiating `_load_dir`. -/
def emptyDir : EggInfoDir :=
  { pkg_info := none, requires_txt := none }

/-- C2: `_load_dir` with zero candidate directories fails with
`NotFoundError`, with two or more candidates fails with
`AmbiguousSourceError`, and in both failure cases returns no project. -/
theorem load_dir_zero_or_many (paths : List EggInfoDir) :
    (paths = [] → _load_dir paths = Except.error LoadError.NotFoundError) ∧
    (2 ≤ paths.length → _load_dir paths = Except.error LoadError.AmbiguousSourceError) ∧
    ((paths = [] ∨ 2 ≤ paths.length) → ∀ root, _load_dir paths ≠ Except.ok root) := by
  rcases paths with _ | ⟨a, _ | ⟨b, t⟩⟩
  · exact ⟨fun _ => rfl, fun h => absurd h (by decide),
      fun _ root hcon => Except.noConfusion hcon⟩
  · refine ⟨fun h => by simp at h, fun h => by simp at h, fun h => ?_⟩
    rcases h with h | h
    · simp at h
    · simp at h
  · exact ⟨fun h => by simp at h, fun _ => rfl,
      fun _ root hcon => Except.noConfusion hcon⟩

/-- Witness for C2 at zero and at two candidate directories. -/
theorem load_dir_zero_or_many_witness :
    _load_dir [] = Except.error LoadError.NotFoundError ∧
    _load_dir [emptyDir, emptyDir] = Except.error LoadError.AmbiguousSourceError ∧
    _load_dir [] ≠ Except.ok (freshRoot "x") :=
  ⟨(load_dir_zero_or_many []).1 rfl,
   (load_dir_zero_or_many [emptyDir, emptyDir]).2.1 (by decide),
   (load_dir_zero_or_many []).2.2 (Or.inl rfl) (freshRoot "x")⟩

/-- C3: for `_load_dir` on exactly one candidate directory whose
`PKG-INFO` parses to a project with zero dependencies, the returned
project's dependencies are exactly those contributed by the sibling
`requires.txt`, and every other metadata field is the one parsed from
`PKG-INFO`. -/
theorem load_dir_single_merges_requires (d : EggInfoDir) (pc rc : String)
    (root root' : RootDependency)
    (hp : d.pkg_info = some pc) (hr : d.requires_txt = some rc)
    (hparse : _parse_info pc = some root) (hnodeps : root.dependencies = [])
    (hload : _load_dir [d] = Except.ok root') :
    requiresDeps rc = some root'.dependencies ∧
    root'.raw_name = root.raw_name ∧ root'.version = root.version ∧
    root'.description = root.description ∧ root'.license = root.license ∧
    root'.keywords = root.keywords ∧ root'.classifiers = root.classifiers ∧
    root'.platforms = root.platforms ∧ root'.links = root.links ∧
    root'.authors = root.authors := by
  simp only [_load_dir, hp, hparse, hnodeps, List.isEmpty_nil, if_true, hr,
    _parse_requires] at hload
  cases ha : parseAll (pyTokens rc) with
  | none =>
    rw [ha] at hload
    exact absurd hload (by simp)
  | some rs =>
    rw [ha] at hload
    cases hload
    refine ⟨?_, rfl, rfl, rfl, rfl, rfl, rfl, rfl, rfl, rfl⟩
    simp [requiresDeps, ha, hnodeps]

/-- The single candidate directory of the C3 witness. -/
def c3dir : EggInfoDir :=
  { pkg_info := some "Name: demo\nVersion: 1.0", requires_txt := some "six>=1.10" }

/-- The project parsed from the C3 witness's `PKG-INFO`. -/
def c3root : RootDependency :=
  { raw_name := "demo", version := "1.0", description := "", license := ""
    keywords := [""], classifiers := [], platforms := [], links := []
    authors := [], dependencies := [], readme := none }

/-- The C3 witness's merged result: `c3root` plus the `requires.txt`
dependency. -/
def c3root' : RootDependency :=
  { c3root with dependencies :=
      [{ name := "six", extras := [], version := ">=1.10", markers := "" }] }

/-- Witness for C3 at one directory holding `PKG-INFO` without
requirements and a `requires.txt` declaring `six>=1.10`. -/
theorem load_dir_single_merges_requires_witness :
    requiresDeps "six>=1.10" = some c3root'.dependencies ∧
    c3root'.raw_name = c3root.raw_name ∧ c3root'.version = c3root.version ∧
    c3root'.description = c3root.description ∧ c3root'.license = c3root.license ∧
    c3root'.keywords = c3root.keywords ∧ c3root'.classifiers = c3root.classifiers ∧
    c3root'.platforms = c3root.platforms ∧ c3root'.links = c3root.links ∧
    c3root'.authors = c3root.authors :=
  load_dir_single_merges_requires c3dir "Name: demo\nVersion: 1.0" "six>=1.10"
    c3root c3root' rfl rfl rfl rfl rfl

/-- C4 fails as frozen: header-form input with a non-empty
`Maintainer: Jane` field and no `Author` field yields one author (Jane),
not zero — each of the author/maintainer fields is added independently
whenever its name value is non-empty. -/
theorem maintainer_only_counterexample :
    getHeader (parseHeaders "Name: demo\nMaintainer: Jane") "Author" = none ∧
    _get (parseHeaders "Name: demo\nMaintainer: Jane") "Maintainer" = "Jane" ∧
    (loads "Name: demo\nMaintainer: Jane").map (fun r => r.authors) =
      some [{ name := "Jane", mail := "" }] := by decide

/-- C4 (amended): header-form input whose `author` field normalizes to
empty and whose `maintainer` field normalizes to a non-empty `m` yields
exactly one author — `m`, with the `maintainer_email` lookup as mail —
because each of the two fields independently appends an `Author` when
its name value is non-empty. -/
theorem maintainer_only_single_author (content m : String) (root : RootDependency)
    (hauthor : _get (parseHeaders content) "author" = "")
    (hm : _get (parseHeaders content) "maintainer" = m) (hmne : m ≠ "")
    (h : _parse_info content = some root) :
    root.authors = [{ name := m, mail := _get (parseHeaders content) "maintainer_email" }] := by
  rw [parse_info_eq] at h
  obtain ⟨rs, hrs, hroot⟩ := Option.map_eq_some'.mp h
  subst hroot
  show newAuthors (parseHeaders content) = _
  simp [newAuthors, hauthor, hm, hmne]

/-- The project parsed from `"Name: demo\nMaintainer: Jane"`. -/
def c4root : RootDependency :=
  { raw_name := "demo", version := "0.0.0", description := "", license := ""
    keywords := [""], classifiers := [], platforms := [], links := []
    authors := [{ name := "Jane", mail := "" }], dependencies := [], readme := none }

/-- Witness for C4 (amended) at the input `"Name: demo\nMaintainer: Jane"`. -/
theorem maintainer_only_single_author_witness :
    c4root.authors =
      [{ name := "Jane",
         mail := _get (parseHeaders "Name: demo\nMaintainer: Jane") "maintainer_email" }] :=
  maintainer_only_single_author "Name: demo\nMaintainer: Jane" "Jane" c4root
    (by decide) (by decide) (by decide) rfl

/-- The single dependency of the C5 round-trip scenario. -/
def demoDep : Dep :=
  { name := "six", extras := [], version := ">=1.10", markers := "" }

/-- The project of the C5 round-trip scenario. -/
def demoProject : RootDependency :=
  { raw_name := "demo", version := "1.2.3", description := "", license := ""
    keywords := [], classifiers := [], platforms := [], links := []
    authors := [], dependencies := [demoDep], readme := none }

/-- C5: `dumps [demoDep] demoProject` emits the lines `Name: demo`,
`Version: 1.2.3` and `Requires: six>=1.10`, and `loads` of the dumped
text recovers `raw_name = "demo"` and `version = "1.2.3"`. -/
theorem dumps_loads_roundtrip :
    (splitLines (dumps [demoDep] demoProject none)).contains "Name: demo" = true ∧
    (splitLines (dumps [demoDep] demoProject none)).contains "Version: 1.2.3" = true ∧
    (splitLines (dumps [demoDep] demoProject none)).contains "Requires: six>=1.10" = true ∧
    (loads (dumps [demoDep] demoProject none)).map (fun r => (r.raw_name, r.version)) =
      some ("demo", "1.2.3") := by decide

/-- The named header field is present in the content and its value
strips to the sentinel `"UNKNOWN"`. -/
def isUnknownAt (content : String) (field : String) : Prop :=
  ∃ v, getHeader (parseHeaders content) field = some v ∧ strip v = "UNKNOWN"

/-- C6 fails as frozen: the recognized field `Version` with literal value
`"UNKNOWN"` is normalized and then replaced by the default `"0.0.0"`,
not stored as the empty string. -/
theorem sentinel_version_counterexample :
    getHeader (parseHeaders "Name: demo\nVersion: UNKNOWN") "Version" = some "UNKNOWN" ∧
    (loads "Name: demo\nVersion: UNKNOWN").map (fun r => r.version) = some "0.0.0" ∧
    ("0.0.0" : String) ≠ "" := by decide

/-- C6 (amended): a recognized textual field whose value strips to the
sentinel `"UNKNOWN"` is never stored: the corresponding model field is
the empty string — except `Version`, which falls back to the default
`"0.0.0"`, and `Keywords`, whose comma-split of the empty string is the
one-element sequence of the empty string — link entries and repeated
fields are omitted, and no author, classifier, platform or requirement
entry ever holds the literal sentinel. -/
theorem sentinel_normalization (content : String) (root : RootDependency)
    (h : _parse_info content = some root) :
    (isUnknownAt content "Name" → root.raw_name = "") ∧
    (isUnknownAt content "Version" → root.version = "0.0.0") ∧
    (isUnknownAt content "Summary" → root.description = "") ∧
    (isUnknownAt content "License" → root.license = "") ∧
    (isUnknownAt content "Keywords" → root.keywords = [""]) ∧
    (isUnknownAt content "Home-Page" → lookupLink root.links "home" = none) ∧
    (isUnknownAt content "Download-URL" → lookupLink root.links "download" = none) ∧
    (isUnknownAt content "Project-URL" → lookupLink root.links "project" = none) ∧
    (∀ a ∈ root.authors, a.name ≠ "UNKNOWN" ∧ a.mail ≠ "UNKNOWN") ∧
    (∀ c ∈ root.classifiers, c ≠ "UNKNOWN") ∧
    (∀ p ∈ root.platforms, p ≠ "UNKNOWN") ∧
    (∀ v ∈ infoReqs (parseHeaders content), v ≠ "UNKNOWN") := by
  rw [parse_info_eq] at h
  obtain ⟨rs, hrs, hroot⟩ := Option.map_eq_some'.mp h
  subst hroot
  refine ⟨?_, ?_, ?_, ?_, ?_, ?_, ?_, ?_, ?_, ?_, ?_, ?_⟩
  · rintro ⟨v, hv, hu⟩
    exact get_unknown _ _ _ hv hu
  · rintro ⟨v, hv, hu⟩
    show (if _get (parseHeaders content) "Version" == "" then "0.0.0"
          else _get (parseHeaders content) "Version") = "0.0.0"
    rw [get_unknown _ _ _ hv hu]
    simp
  · rintro ⟨v, hv, hu⟩
    exact get_unknown _ _ _ hv hu
  · rintro ⟨v, hv, hu⟩
    exact get_unknown _ _ _ hv hu
  · rintro ⟨v, hv, hu⟩
    show (splitChar ',' (_get (parseHeaders content) "Keywords").data).map
        (fun l => (⟨l⟩ : String)) = [""]
    rw [get_unknown _ _ _ hv hu]
    decide
  · rintro ⟨v, hv, hu⟩
    exact newLinks_home_none _ (get_unknown _ _ _ hv hu)
  · rintro ⟨v, hv, hu⟩
    exact newLinks_download_none _ (get_unknown _ _ _ hv hu)
  · rintro ⟨v, hv, hu⟩
    exact newLinks_project_none _ (get_unknown _ _ _ hv hu)
  · exact fun a ha => mem_newAuthors _ a ha
  · exact fun c hc => mem_get_list_ne_unknown _ _ _ hc
  · exact fun p hp => mem_get_list_ne_unknown _ _ _ hp
  · intro v hv
    rcases List.mem_append.mp hv with h1 | h1
    · exact mem_get_list_ne_unknown _ _ _ h1
    · exact mem_get_list_ne_unknown _ _ _ h1

/-- The project parsed from `"Name: demo\nVersion: UNKNOWN"`. -/
def c6root : RootDependency :=
  { raw_name := "demo", version := "0.0.0", description := "", license := ""
    keywords := [""], classifiers := [], platforms := [], links := []
    authors := [], dependencies := [], readme := none }

/-- Witness for C6 (amended): the Version conjunct at the input
`"Name: demo\nVersion: UNKNOWN"`. -/
theorem sentinel_normalization_witness :
    c6root.version = "0.0.0" :=
  (sentinel_normalization "Name: demo\nVersion: UNKNOWN" c6root rfl).2.1
    ⟨"UNKNOWN", by decide, by decide⟩

/-- C7: input whose `Version` header is absent (or strips to empty)
loads to a project with `version = "0.0.0"` — on the header-form route
through the `or "0.0.0"` fallback, and on the requirement-list route
through the fresh project's default version. -/
theorem loads_missing_version_defaults (content : String) (root : RootDependency)
    (hv : getHeader (parseHeaders content) "Version" = none ∨
          ∃ v, getHeader (parseHeaders content) "Version" = some v ∧ strip v = "")
    (h : loads content = some root) :
    root.version = "0.0.0" := by
  have hgv : _get (parseHeaders content) "Version" = "" := by
    rcases hv with hv | ⟨v, hv1, hv2⟩
    · exact get_none _ _ hv
    · exact get_empty_strip _ _ _ hv1 hv2
  by_cases hr : containsStr content "Name: " = true
  · have hroute2 : loads content = _parse_info content := by simp [loads, hr]
    rw [hroute2, parse_info_eq] at h
    obtain ⟨rs, hrs, hroot⟩ := Option.map_eq_some'.mp h
    subst hroot
    show (if _get (parseHeaders content) "Version" == "" then "0.0.0"
          else _get (parseHeaders content) "Version") = "0.0.0"
    rw [hgv]
    simp
  · have hfalse : containsStr content "Name: " = false := by
      cases hcc : containsStr content "Name: " with
      | false => rfl
      | true => exact absurd hcc hr
    have hroute2 : loads content = _parse_requires content none := by simp [loads, hfalse]
    rw [hroute2] at h
    have h2 : ∀ rs, parseAll (pyTokens content) = some rs →
        _parse_requires content none =
          some { freshRoot (inferName content) with
            dependencies := (freshRoot (inferName content)).dependencies ++
              concatMap fromRequirement rs } := by
      intro rs hrs
      simp [_parse_requires, hrs]
    cases ha : parseAll (pyTokens content) with
    | none =>
      rw [show _parse_requires content none = none by simp [_parse_requires, ha]] at h
      exact absurd h (by simp)
    | some rs =>
      rw [h2 rs ha] at h
      injection h with h3
      rw [← h3]
      rfl

/-- The project parsed from `"Name: demo"` (no Version field). -/
def c7root : RootDependency :=
  { raw_name := "demo", version := "0.0.0", description := "", license := ""
    keywords := [""], classifiers := [], platforms := [], links := []
    authors := [], dependencies := [], readme := none }

/-- Witness for C7 at the input `"Name: demo"`. -/
theorem loads_missing_version_defaults_witness :
    c7root.version = "0.0.0" :=
  loads_missing_version_defaults "Name: demo" c7root (Or.inl (by decide)) rfl

set_option linter.unusedVariables false in
/-- C8: requirement-list text of `N` whitespace-separated valid tokens,
each a requirement without extras and with pairwise distinct names,
parses to a project with exactly `N` dependencies (the distinctness
hypothesis is part of the claim; the attach step appends, so the count
does not depend on it). -/
theorem parse_requires_token_count (content : String) (rs : List Requirement)
    (root : RootDependency)
    (hparse : parseAll (pyTokens content) = some rs)
    (hnoextras : ∀ r ∈ rs, r.extras = [])
    (hdistinct : (rs.map (fun r => r.name)).Nodup)
    (hroot : _parse_requires content none = some root) :
    root.dependencies.length = (pyTokens content).length := by
  have h2 : _parse_requires content none =
      some { freshRoot (inferName content) with
        dependencies := (freshRoot (inferName content)).dependencies ++
          concatMap fromRequirement rs } := by
    simp [_parse_requires, hparse]
  rw [h2] at hroot
  injection hroot with h3
  rw [← h3]
  show (concatMap fromRequirement rs).length = (pyTokens content).length
  rw [concatMap_from_length rs hnoextras, parseAll_length _ _ hparse]

/-- The requirements parsed from `"six>=1.10 requests"`. -/
def c8reqs : List Requirement :=
  [{ name := "six", extras := [], specifier := ">=1.10", marker := "" },
   { name := "requests", extras := [], specifier := "", marker := "" }]

/-- The project parsed from the requirement list `"six>=1.10 requests"`. -/
def c8root : RootDependency :=
  { freshRoot "six" with dependencies :=
      [{ name := "six", extras := [], version := ">=1.10", markers := "" },
       { name := "requests", extras := [], version := "", markers := "" }] }

/-- Witness for C8 at the two-token input `"six>=1.10 requests"`. -/
theorem parse_requires_token_count_witness :
    c8root.dependencies.length = (pyTokens "six>=1.10 requests").length :=
  parse_requires_token_count "six>=1.10 requests" c8reqs c8root rfl
    (by decide) (by decide) rfl

/-- C9: the `content` argument of `dumps` never influences the output —
the source rebinds it to a fresh list before use, so the document is
always generated from scratch. -/
theorem dumps_ignores_content (reqs : List Dep) (project : RootDependency)
    (c1 c2 : Option String) :
    dumps reqs project c1 = dumps reqs project c2 := rfl

/-- C10: header-form input whose `Keywords` field is absent, strips to
empty, or strips to the sentinel loads to `keywords = [""]` — the
one-element sequence holding the empty string, not the empty sequence. -/
theorem keywords_empty_singleton (content : String) (root : RootDependency)
    (hk : getHeader (parseHeaders content) "Keywords" = none ∨
          ∃ v, getHeader (parseHeaders content) "Keywords" = some v ∧
            (strip v = "" ∨ strip v = "UNKNOWN"))
    (hroute : containsStr content "Name: " = true)
    (h : loads content = some root) :
    root.keywords = [""] := by
  have hg : _get (parseHeaders content) "Keywords" = "" := by
    rcases hk with hk | ⟨v, hv1, hv2 | hv2⟩
    · exact get_none _ _ hk
    · exact get_empty_strip _ _ _ hv1 hv2
    · exact get_unknown _ _ _ hv1 hv2
  have hroute2 : loads content = _parse_info content := by simp [loads, hroute]
  rw [hroute2, parse_info_eq] at h
  obtain ⟨rs, hrs, hroot⟩ := Option.map_eq_some'.mp h
  subst hroot
  show (splitChar ',' (_get (parseHeaders content) "Keywords").data).map
      (fun l => (⟨l⟩ : String)) = [""]
  rw [hg]
  decide

/-- The project parsed from `"Name: demo\nKeywords: UNKNOWN"`. -/
def c10root : RootDependency :=
  { raw_name := "demo", version := "0.0.0", description := "", license := ""
    keywords := [""], classifiers := [], platforms := [], links := []
    authors := [], dependencies := [], readme := none }

/-- Witness for C10 at the input `"Name: demo\nKeywords: UNKNOWN"`. -/
theorem keywords_empty_singleton_witness :
    c10root.keywords = [""] :=
  keywords_empty_singleton "Name: demo\nKeywords: UNKNOWN" c10root
    (Or.inr ⟨"UNKNOWN", by decide, Or.inr (by decide)⟩) (by decide) rfl

end Dephell
